import Mathlib

/-!
Shallow embedding of `src/edinet_api.py` (class `Edinet`) and proofs about
the claims on its spec.

The Python module talks to the EDINET v2 HTTP API.  We embed each method as
a pure Lean function from an explicit HTTP environment (what the remote
server answers for the one request the method makes) to the Python return
value together with the ordered trace of observable side effects
(network calls, file writes, directory creation, sleeps, prints).
Python exceptions are modelled with an explicit `PyResult` sum:
`.exn msg` means the call raised and the exception escaped the function.
-/

namespace Edinet

/-- Class constant `Edinet.URL`. -/
def URL : String := "https://api.edinet-fsa.go.jp/api/v2"

/-- Class constant `Edinet.TSV_PATH`. -/
def TSV_PATH : String := "./tsv"

/-- Class constant `Edinet.DOC_PATH`. -/
def DOC_PATH : String := "./doc"

/-- Class constant `Edinet.DOCTYPE`: maps a format name to the
`type` query parameter. -/
def DOCTYPE : String → Option Nat
  | "xbrl" => some 1
  | "pdf" => some 2
  | _ => none

/-- One row of the `results` array of the listing response.  The code
passes rows through opaquely (`pd.DataFrame(doc_list)`), so a row is an
opaque field-name/value mapping. -/
abbrev Record := List (String × String)

/-- The part of the parsed JSON body the code reads: `data.get('results')`,
which is either absent (`none`) or a list of rows. -/
structure DocData where
  results : Option (List Record)
deriving DecidableEq, Repr

/-- A response body: the raw bytes (`ret.content` /
`response.content.read()`) together with the result of parsing those bytes
as JSON (`ret.json()` / `json.loads(content)`); `asJson = none` means the
parse raises a decode error. -/
structure HttpBody where
  bytes : List Nat
  asJson : Option DocData
deriving DecidableEq, Repr

/-- What the remote end does for a single request: either the HTTP call
raises (connection failure, timeout), or a response with a status code and
a body arrives. -/
inductive HttpResult where
  | exn (msg : String)
  | resp (status : Nat) (body : HttpBody)
deriving DecidableEq, Repr

/-- Content of a file write as the code performs it. -/
inductive FileContent where
  | bytes (b : List Nat)
  | table (rows : List Record)
  | jsonDump (d : DocData)
  | creationOnly
deriving DecidableEq, Repr

/-- An observable side effect, in program order. -/
inductive Event where
  | netCall (url : String)
  | fileWrite (path : String) (content : FileContent)
  | mkdir (path : String)
  | sleep (seconds : Nat)
  | printOut (msg : String)
  | printErr (msg : String)
deriving DecidableEq, Repr

/-- Result of a Python call: either a normal return value or an exception
that escaped the function. -/
inductive PyResult (α : Type) where
  | ok (a : α)
  | exn (msg : String)
deriving DecidableEq, Repr

/-- The URL built by `get_doc_json` / `async_get_doc_json`:
`f'.../documents.json?date=...&type=2&Subscription-Key=...'`. -/
def docJsonUrl (date key : String) : String :=
  URL ++ "/documents.json?date=" ++ date ++ "&type=2&Subscription-Key=" ++ key

/-- The URL built by `get_document` / `async_get_document`:
`f'.../documents/...?type=...&Subscription-Key=...'`. -/
def documentUrl (docId : String) (docType : Nat) (key : String) : String :=
  URL ++ "/documents/" ++ docId ++ "?type=" ++ toString docType ++
    "&Subscription-Key=" ++ key

/-- Return value of `Edinet.get_doc_json`: Python `False`, or the
dataframe built from the `results` rows. -/
inductive GetDocJsonRet where
  | pyFalse
  | df (rows : List Record)
deriving DecidableEq, Repr

/-- Tail of `Edinet.get_doc_json` after the status branch: `data =
ret.json()` (raises when the body is not JSON), `doc_list =
data.get('results')`, create `TSV_PATH` when missing, then either write the
per-date TSV and return the dataframe or return `False`. -/
def get_doc_json_tail (d : String) (tsvDirExists : Bool)
    (asJson : Option DocData) (evs : List Event) :
    PyResult GetDocJsonRet × List Event :=
  match asJson with
  | none => (.exn "JSONDecodeError", evs)
  | some data =>
    let evs := evs ++ (if tsvDirExists then [] else [.mkdir TSV_PATH])
    match data.results with
    | some rows =>
      (.ok (.df rows),
        evs ++ [.fileWrite (TSV_PATH ++ "/document_list_" ++ d ++ ".tsv.gz")
                  (.table rows)])
    | none => (.ok .pyFalse, evs)

/-- Embedding of `Edinet.get_doc_json(date, output)`.  `today` is the
value of `datetime.date.today().strftime('%Y-%m-%d')`, `tsvDirExists`
the value of `os.path.isdir(self.TSV_PATH)`, `http` what `requests.get`
does for the one URL this call requests.  No try/except anywhere in the
function: a raise escapes as `.exn`. -/
def get_doc_json (key : String) (date : Option String) (output : Bool)
    (today : String) (tsvDirExists : Bool) (http : HttpResult) :
    PyResult GetDocJsonRet × List Event :=
  let d := date.getD today
  let url := docJsonUrl d key
  match http with
  | .exn m => (.exn m, [.netCall url])
  | .resp status body =>
    if status == 200 && output then
      match body.asJson with
      | none =>
        -- json.dump(ret.json(), fw): the with-block has already created
        -- the file when ret.json() raises a decode error
        (.exn "JSONDecodeError",
          [.netCall url, .fileWrite ("documents_" ++ d ++ ".json") .creationOnly])
      | some data =>
        get_doc_json_tail d tsvDirExists (some data)
          [.netCall url, .fileWrite ("documents_" ++ d ++ ".json") (.jsonDump data)]
    else if status == 404 then
      (.ok .pyFalse, [.netCall url, .printErr "status code: 404"])
    else
      get_doc_json_tail d tsvDirExists body.asJson
        [.netCall url, .printOut ("status_code = " ++ toString status)]

/-- Embedding of `Edinet.get_document(doc_id, doc_type, target_dir)`.
Writes `target_dir/<doc_id>.<ext>` on a 200 response and returns `True`;
otherwise prints the status to stderr and returns `False`.  No try/except:
a raise from `requests.get` escapes. -/
def get_document (key docId : String) (docType : Nat) (targetDir : String)
    (http : HttpResult) : PyResult Bool × List Event :=
  let url := documentUrl docId docType key
  let extension := if docType == 2 then "pdf" else "zip"
  match http with
  | .exn m => (.exn m, [.netCall url])
  | .resp status body =>
    if status == 200 then
      (.ok true,
        [.netCall url,
         .fileWrite (targetDir ++ "/" ++ docId ++ "." ++ extension)
           (.bytes body.bytes)])
    else
      (.ok false, [.netCall url, .printErr ("status_code = " ++ toString status)])

/-- Embedding of `Edinet.async_get_doc_json(session, date)`.  Prints the
URL, creates the TSV directory, then inside `try`: fetches, decodes the
body with `json.loads`, and writes the per-date TSV when `results` is
present; every exception inside the `try` is caught, printed, and the
coroutine returns `None` (so the Lean result is always `.ok ()`). -/
def async_get_doc_json (key : String) (date : Option String) (today : String)
    (http : HttpResult) : PyResult Unit × List Event :=
  let d := date.getD today
  let url := docJsonUrl d key
  let pre : List Event := [.printOut url, .mkdir TSV_PATH]
  let savePath := TSV_PATH ++ "/document_list_" ++ d ++ ".tsv.gz"
  match http with
  | .exn m =>
    (.ok (), pre ++ [.netCall url, .printOut ("Error fetching " ++ url ++ ": " ++ m)])
  | .resp status body =>
    let fetched : List Event :=
      [.netCall url,
       .printOut ("Fetching: " ++ url ++ " (Status: " ++ toString status ++ ")")]
    match body.asJson with
    | none =>
      (.ok (), pre ++ fetched ++
        [.printOut ("Error fetching " ++ url ++ ": JSONDecodeError")])
    | some data =>
      match data.results with
      | some rows => (.ok (), pre ++ fetched ++ [.fileWrite savePath (.table rows)])
      | none => (.ok (), pre ++ fetched)

/-- Embedding of `Edinet.async_get_document(session, doc_id, target_dir,
doc_type)`.  Creates the target directory, then inside `try`: fetches,
reads the body, and writes it to `target_dir/<doc_id>.zip` — the save path
is fixed to the `.zip` extension and the write happens for every response
status, since the function never inspects `response.status`.  Exceptions
inside the `try` are caught and printed; the coroutine returns `None`. -/
def async_get_document (key docId targetDir : String) (docType : Nat)
    (http : HttpResult) : PyResult Unit × List Event :=
  let url := documentUrl docId docType key
  let savePath := targetDir ++ "/" ++ docId ++ ".zip"
  let pre : List Event := [.mkdir targetDir]
  match http with
  | .exn m =>
    (.ok (), pre ++ [.netCall url, .printOut ("Error fetching " ++ url ++ ": " ++ m)])
  | .resp status body =>
    (.ok (), pre ++
      [.netCall url,
       .printOut ("Fetching: " ++ url ++ " (Status: " ++ toString status ++ ")"),
       .fileWrite savePath (.bytes body.bytes)])

/-- File writes performed by a trace, in order. -/
def writesOf (evs : List Event) : List (String × FileContent) :=
  evs.filterMap fun e =>
    match e with
    | .fileWrite p c => some (p, c)
    | _ => none

/-- Network calls performed by a trace, in order. -/
def netCallsOf (evs : List Event) : List String :=
  evs.filterMap fun e =>
    match e with
    | .netCall u => some u
    | _ => none

/-!
Model of `asyncio.gather` as used by `get_documents` and `async_get_docs`.

`asyncio.gather(*tasks)` schedules every coroutine as a task; the children
complete in some order (chosen by the network, modelled by an explicit
completion-order list of task indices); each child, on completion, stores
its value in the slot for its own index, and `gather` resolves with the
slot list in task order.  The side-effect traces of the children interleave
according to a scheduler-chosen sequence of task indices.
-/

/-- Store arrived results into their slots: each `(i, v)` pair sets slot
`i` to `some v`. -/
def fillSlots (slots : List (Option α)) : List (Nat × α) → List (Option α)
  | [] => slots
  | (i, v) :: rest => fillSlots (slots.set i (some v)) rest

/-- Result list of `asyncio.gather` over `tasks`, with children completing
in the order given by `completionOrder` (a list of task indices):
completed values arrive as (index, value) pairs in that order and are
placed in the slot of their index. -/
def gatherRes (tasks : List α) (completionOrder : List Nat) : List (Option α) :=
  fillSlots (List.replicate tasks.length none)
    (completionOrder.filterMap fun i => (tasks.get? i).map fun v => (i, v))

/-- Interleaving of the children's side-effect traces: `sched` is the
scheduler's sequence of task indices; at each step the named task emits
its next pending event (indices with no pending event are skipped). -/
def interleave (traces : List (List Event)) : List Nat → List Event
  | [] => []
  | i :: rest =>
    match traces.get? i with
    | some (e :: es) => e :: interleave (traces.set i es) rest
    | some [] => interleave traces rest
    | none => interleave traces rest

/-- The tasks built by `get_documents`: one
`async_get_document(session, doc_id, target_dir)` coroutine per entry of
the `doc_ids` mapping, with `doc_type` left at its default `1`. -/
def get_documents_tasks (key : String) (docIds : List (String × String))
    (http : String → HttpResult) : List (PyResult Unit × List Event) :=
  docIds.map fun p => async_get_document key p.1 p.2 1 (http p.1)

/-- The value of the `asyncio.gather(*tasks)` expression inside
`get_documents` (the coroutine body discards it). -/
def get_documents_gather (key : String) (docIds : List (String × String))
    (http : String → HttpResult) (completionOrder : List Nat) :
    List (Option (PyResult Unit)) :=
  gatherRes ((get_documents_tasks key docIds http).map Prod.fst) completionOrder

/-- Embedding of `Edinet.get_documents(doc_ids)`.  Builds the coroutine
list (building a coroutine runs none of its body), blocks in
`time.sleep(5)`, then awaits `asyncio.gather`.  The body has no `return`
statement, so the coroutine returns Python `None` (`Option.none` here),
discarding the gather result. -/
def get_documents (key : String) (docIds : List (String × String))
    (http : String → HttpResult) (sched : List Nat) :
    Option (List (Option (PyResult Unit))) × List Event :=
  (none,
    .sleep 5 :: interleave ((get_documents_tasks key docIds http).map Prod.snd) sched)

/-- The tasks built by `async_get_docs`: one
`async_get_doc_json(session, item)` coroutine per date. -/
def async_get_docs_tasks (key today : String) (dates : List String)
    (http : String → HttpResult) : List (PyResult Unit × List Event) :=
  dates.map fun d => async_get_doc_json key (some d) today (http d)

/-- Embedding of `Edinet.async_get_docs(dates, sleep_time)`.  Builds the
coroutine list, blocks in `time.sleep(sleep_time)`, then awaits
`asyncio.gather`; no `return` statement, so it returns `None`. -/
def async_get_docs (key today : String) (dates : List String)
    (http : String → HttpResult) (sleep_time : Nat) (sched : List Nat) :
    Option (List (Option (PyResult Unit))) × List Event :=
  (none,
    .sleep sleep_time ::
      interleave ((async_get_docs_tasks key today dates http).map Prod.snd) sched)

/-!
Model of the in-flight bound of `asyncio.gather`, for the concurrency
claim.  After `gather` schedules the tasks, the event loop runs each
scheduled task once per ready pass; a fetch coroutine
(`async_get_document` / `async_get_doc_json`) reaches its first `await`
(`session.get`) during its first slice, issuing its HTTP request, and
stays in flight until the response arrives `delay` time units later.
Neither `get_documents` nor `async_get_docs` takes a concurrency bound:
every task is scheduled at once.
-/

/-- Phase of one fetch task on the event loop. -/
inductive TaskPhase where
  | notStarted
  | awaitingResponse (completeAt : Nat)
  | done
deriving DecidableEq, Repr

/-- Run one slice of a task at the given clock: a not-yet-started task
runs to its first `await`, issuing its request (in flight until
`clock + delay`); an awaiting task finishes once its response is in. -/
def runSlice (clock delay : Nat) : TaskPhase → TaskPhase
  | .notStarted => .awaitingResponse (clock + delay)
  | .awaitingResponse c => if c ≤ clock then .done else .awaitingResponse c
  | .done => .done

/-- The event loop's first ready pass after `asyncio.gather` schedules
every task (at clock 0): each task runs its first slice. -/
def gatherFirstPass (delays : List Nat) : List TaskPhase :=
  delays.map fun d => runSlice 0 d .notStarted

/-- Number of requests simultaneously in flight at the given clock. -/
def inFlightCount (phases : List TaskPhase) (clock : Nat) : Nat :=
  (phases.filter fun p =>
    match p with
    | .awaitingResponse c => decide (clock < c)
    | _ => false).length

/-!
Embedding of the `__main__` driver: iterate `target_date` from
`today - 180 days` up to `today` inclusive, call `get_doc_json` once per
date, concatenate the returned dataframes (skipping `False` returns and
empty dataframes), and write the combined `document_list.tsv`.
-/

/-- The dates visited by the `while target_date <= today` loop, as day
ordinals: `start, start+1, ..., stop`. -/
def datesFromTo (start stop : Nat) : List Nat :=
  List.range' start (stop + 1 - start)

/-- One iteration step plus the rest of the `__main__` loop.  `dateStr`
renders a day ordinal as the `%Y-%m-%d` string passed to `get_doc_json`;
`dirEx` tracks whether `./tsv` exists; a raise from `get_doc_json`
escapes and aborts the script before the combined file is written. -/
def mainLoop (key : String) (dateStr : Nat → String) (env : Nat → HttpResult) :
    List Nat → Bool → List Record → List Event →
    PyResult (List Record) × List Event
  | [], _, acc, evs =>
    (.ok acc, evs ++ [.fileWrite "document_list.tsv" (.table acc)])
  | d :: ds, dirEx, acc, evs =>
    match get_doc_json key (some (dateStr d)) false (dateStr d) dirEx (env d) with
    | (.exn m, e) => (.exn m, evs ++ e)
    | (.ok .pyFalse, e) =>
      mainLoop key dateStr env ds (dirEx || e.contains (.mkdir TSV_PATH)) acc (evs ++ e)
    | (.ok (.df rows), e) =>
      mainLoop key dateStr env ds (dirEx || e.contains (.mkdir TSV_PATH))
        (if rows.length > 0 then acc ++ rows else acc) (evs ++ e)

/-- The `__main__` driver generalized to an arbitrary closed day-ordinal
interval `[start, stop]`. -/
def driverRange (key : String) (dateStr : Nat → String) (dirEx : Bool)
    (env : Nat → HttpResult) (start stop : Nat) :
    PyResult (List Record) × List Event :=
  mainLoop key dateStr env (datesFromTo start stop) dirEx [] []

/-- Embedding of the `__main__` block: run the daily loop from
`today - 180` to `today`. -/
def edinetMain (key : String) (todayOrd : Nat) (dateStr : Nat → String)
    (dirEx : Bool) (env : Nat → HttpResult) :
    PyResult (List Record) × List Event :=
  driverRange key dateStr dirEx env (todayOrd - 180) todayOrd

/-- Environments under which a `__main__` iteration completes without a
raise: a 404 response, or a 200 response whose body parses as JSON. -/
def mainFriendly : HttpResult → Bool
  | .exn _ => false
  | .resp s body => s == 404 || (s == 200 && body.asJson.isSome)

/-- The per-date record table of the combined run: the `results` rows of a
200 response, the empty table for a date whose outcome was `NotFound`
(404) or whose `results` are absent. -/
def perDateRows : HttpResult → List Record
  | .resp s body =>
    if s == 200 then
      match body.asJson with
      | some data => data.results.getD []
      | none => []
    else []
  | .exn _ => []

/-!
Embedding of the credential resolution in `Edinet.__init__`.
-/

/-- Python truthiness of `os.getenv(...)`: `None` and the empty string are
falsy, every other string truthy. -/
def pyTruthy : Option String → Bool
  | none => false
  | some s => s ≠ ""

/-- Where `__init__` takes the subscription key from. -/
inductive KeySource where
  | envVar
  | keyFile
  | interactive
deriving DecidableEq, Repr

/-- Branch taken by `__init__`: the environment variable when truthy, else
the key file when a path was supplied and the file exists, else the
interactive widget. -/
def initKeySource (envKey : Option String) (keyPath : Option String)
    (isFile : Bool) : KeySource :=
  if pyTruthy envKey then .envVar
  else if keyPath.isSome && isFile then .keyFile
  else .interactive

/-- The subscription key `__init__` stores: the environment variable's
value, the `Subscription-Key` field of the key file, or nothing yet
(the interactive widget assigns only when its button is clicked). -/
def initKeyValue (envKey : Option String) (keyPath : Option String)
    (isFile : Bool) (fileKey : Option String) : Option String :=
  match initKeySource envKey keyPath isFile with
  | .envVar => envKey
  | .keyFile => fileKey
  | .interactive => none

/-- Modelled from the spec: the spec's notion of a "valid calendar date"
(an ISO-8601 `YYYY-MM-DD` day).  The source performs no such validation;
this definition exists only to state the Request Builder claim. -/
def validCalendarDate (s : String) : Bool :=
  match s.toList with
  | [y1, y2, y3, y4, c1, m1, m2, c2, d1, d2] =>
    (c1 = '-' && c2 = '-' &&
      [y1, y2, y3, y4, m1, m2, d1, d2].all Char.isDigit) &&
    (let y := ((y1.toNat - 48) * 1000 + (y2.toNat - 48) * 100 +
               (y3.toNat - 48) * 10 + (y4.toNat - 48))
     let m := (m1.toNat - 48) * 10 + (m2.toNat - 48)
     let d := (d1.toNat - 48) * 10 + (d2.toNat - 48)
     let leap := (y % 4 == 0 && y % 100 != 0) || y % 400 == 0
     let dim :=
       if m == 2 then (if leap then 29 else 28)
       else if m == 4 || m == 6 || m == 9 || m == 11 then 30
       else 31
     1 ≤ m && m ≤ 12 && 1 ≤ d && d ≤ dim)
  | _ => false

/-! Helper lemmas shared by several claims. -/

theorem netCallsOf_append (a b : List Event) :
    netCallsOf (a ++ b) = netCallsOf a ++ netCallsOf b :=
  List.filterMap_append a b _

theorem writesOf_append (a b : List Event) :
    writesOf (a ++ b) = writesOf a ++ writesOf b :=
  List.filterMap_append a b _

/-- The tail of `get_doc_json` only appends events after the ones already
emitted. -/
theorem get_doc_json_tail_events (d : String) (dirEx : Bool)
    (aj : Option DocData) (evs : List Event) :
    ∃ rest, (get_doc_json_tail d dirEx aj evs).2 = evs ++ rest := by
  rcases aj with _ | ⟨_ | rows⟩
  · exact ⟨[], (List.append_nil evs).symm⟩
  · exact ⟨if dirEx then [] else [.mkdir TSV_PATH], rfl⟩
  · refine ⟨(if dirEx then [] else [.mkdir TSV_PATH]) ++
      [.fileWrite (TSV_PATH ++ "/document_list_" ++ d ++ ".tsv.gz") (.table rows)],
      ?_⟩
    simp [get_doc_json_tail]

/-! ### Claim C2 — worker failure containment -/

/-- Counterexample for claim C2: the synchronous fetch workers
(`get_doc_json`, `get_document`) have no try/except, so a connection
failure or timeout raised by `requests.get`, or a body-decoding failure
raised by `ret.json()`, escapes the worker instead of being returned as a
transport-error outcome. -/
theorem c2_counterexample :
    (get_doc_json "KEY" (some "2024-01-01") false "2024-06-01" true
        (.exn "ConnectionError")).1 = .exn "ConnectionError" ∧
    (get_document "KEY" "S100TEST" 1 "./doc" (.exn "ReadTimeout")).1 =
      .exn "ReadTimeout" ∧
    (get_doc_json "KEY" (some "2024-01-01") false "2024-06-01" true
        (.resp 200 ⟨[1, 2], none⟩)).1 = .exn "JSONDecodeError" := by
  exact ⟨rfl, rfl, rfl⟩

/-- Claim C2 as amended: only the asynchronous workers
(`async_get_doc_json`, `async_get_document`) satisfy the containment
property — they always return `None` (never raise past their boundary),
and on a connection/timeout failure or a response-body decoding failure
they write no file; the synchronous workers propagate such exceptions
(see the counterexample). -/
theorem c2_theorem :
    (∀ key date today http,
      (async_get_doc_json key date today http).1 = .ok ()) ∧
    (∀ key docId targetDir docType http,
      (async_get_document key docId targetDir docType http).1 = .ok ()) ∧
    (∀ key date today m,
      writesOf (async_get_doc_json key date today (.exn m)).2 = []) ∧
    (∀ key date today s bs,
      writesOf (async_get_doc_json key date today (.resp s ⟨bs, none⟩)).2 = []) ∧
    (∀ key docId targetDir docType m,
      writesOf (async_get_document key docId targetDir docType (.exn m)).2 = []) := by
  refine ⟨?_, ?_, ?_, ?_, ?_⟩
  · intro key date today http
    rcases http with m | ⟨s, ⟨bs, _ | ⟨_ | rows⟩⟩⟩ <;> rfl
  · intro key docId targetDir docType http
    rcases http with m | ⟨s, ⟨bs, j⟩⟩ <;> rfl
  · intro key date today m
    rfl
  · intro key date today s bs
    rfl
  · intro key docId targetDir docType m
    rfl

/-! ### Claim C3 — HTTP 404 handling -/

/-- Counterexample for claim C3: on an HTTP 404 response,
`async_get_document` (which never inspects `response.status`) still
writes the response body to the destination path
`<target-dir>/<id>.zip`, and its outcome is `None`, not a distinguished
NotFound value. -/
theorem c3_counterexample :
    writesOf (async_get_document "KEY" "A2" "./out" 1
        (.resp 404 ⟨[110, 111], none⟩)).2 =
      [("./out/A2.zip", .bytes [110, 111])] ∧
    (async_get_document "KEY" "A2" "./out" 1
        (.resp 404 ⟨[110, 111], none⟩)).1 = .ok () := by
  exact ⟨rfl, rfl⟩

/-- Claim C3 as amended: the synchronous workers do satisfy it — on a 404
response `get_doc_json` returns `False` after printing `status code: 404`
to stderr without writing any file, and `get_document` returns `False`
without writing any file — while `async_get_document` ignores the status
and writes the 404 response body to the destination path. -/
theorem c3_theorem :
    (∀ key date output today dirEx body,
      get_doc_json key date output today dirEx (.resp 404 body) =
        (.ok .pyFalse,
          [.netCall (docJsonUrl (date.getD today) key),
           .printErr "status code: 404"])) ∧
    (∀ key docId docType targetDir body,
      get_document key docId docType targetDir (.resp 404 body) =
        (.ok false,
          [.netCall (documentUrl docId docType key),
           .printErr "status_code = 404"])) ∧
    (∀ key docId targetDir docType body,
      writesOf (async_get_document key docId targetDir docType
          (.resp 404 body)).2 =
        [(targetDir ++ "/" ++ docId ++ ".zip", .bytes body.bytes)]) := by
  refine ⟨?_, ?_, ?_⟩
  · intro key date output today dirEx body
    rfl
  · intro key docId docType targetDir body
    rfl
  · intro key docId targetDir docType body
    rfl

/-! ### Claim C5 — other non-200 statuses -/

/-- Counterexample for claim C5: on an HTTP 500 response,
`async_get_document` writes the response body to the destination path
(and returns `None`, which carries no status code), instead of producing
a no-file HttpError outcome. -/
theorem c5_counterexample :
    writesOf (async_get_document "KEY" "A3" "./out" 1
        (.resp 500 ⟨[101], none⟩)).2 =
      [("./out/A3.zip", .bytes [101])] ∧
    (async_get_document "KEY" "A3" "./out" 1
        (.resp 500 ⟨[101], none⟩)).1 = .ok () := by
  exact ⟨rfl, rfl⟩

/-- Claim C5 as amended: for `get_document`, any status other than 200
yields return value `False` with the status code reported only on stderr
and no file written; `async_get_document` ignores the status and writes
the response body to the destination for every status; `get_doc_json` on a
status that is neither 200 nor 404 prints the code and then still
processes the body exactly as on a 200 response. -/
theorem c5_theorem (key docId : String) (docType : Nat) (targetDir : String)
    (date : Option String) (output : Bool) (today : String) (dirEx : Bool)
    (s : Nat) (body : HttpBody) (hs200 : s ≠ 200) (hs404 : s ≠ 404) :
    get_document key docId docType targetDir (.resp s body) =
      (.ok false,
        [.netCall (documentUrl docId docType key),
         .printErr ("status_code = " ++ toString s)]) ∧
    writesOf (get_document key docId docType targetDir (.resp s body)).2 = [] ∧
    writesOf (async_get_document key docId targetDir docType (.resp s body)).2 =
      [(targetDir ++ "/" ++ docId ++ ".zip", .bytes body.bytes)] ∧
    get_doc_json key date output today dirEx (.resp s body) =
      get_doc_json_tail (date.getD today) dirEx body.asJson
        [.netCall (docJsonUrl (date.getD today) key),
         .printOut ("status_code = " ++ toString s)] := by
  have h200 : (s == 200) = false := by simp [hs200]
  have h404 : (s == 404) = false := by simp [hs404]
  refine ⟨?_, ?_, ?_, ?_⟩
  · simp [get_document, h200]
  · simp [get_document, h200, writesOf]
  · rfl
  · simp [get_doc_json, h200, h404]

/-- Witness for the C5 theorem at status 500. -/
theorem c5_witness :
    get_document "KEY" "A3" 1 "./out" (.resp 500 ⟨[101], none⟩) =
      (.ok false,
        [.netCall (documentUrl "A3" 1 "KEY"),
         .printErr ("status_code = " ++ toString 500)]) ∧
    writesOf (get_document "KEY" "A3" 1 "./out" (.resp 500 ⟨[101], none⟩)).2 = [] ∧
    writesOf (async_get_document "KEY" "A3" "./out" 1 (.resp 500 ⟨[101], none⟩)).2 =
      [("./out" ++ "/" ++ "A3" ++ ".zip", .bytes [101])] ∧
    get_doc_json "KEY" (some "2024-01-01") false "T" true (.resp 500 ⟨[101], none⟩) =
      get_doc_json_tail "2024-01-01" true none
        [.netCall (docJsonUrl "2024-01-01" "KEY"),
         .printOut ("status_code = " ++ toString 500)] :=
  c5_theorem "KEY" "A3" 1 "./out" (some "2024-01-01") false "T" true 500
    ⟨[101], none⟩ (by decide) (by decide)

/-! ### Claim C6 — output path and extension of a successful fetch -/

/-- Counterexample for claim C6: for a RenderedDocument request
(`doc_type = 2`, the `pdf` entry of `DOCTYPE`) served with HTTP 200,
`async_get_document` writes `<target-dir>/<id>.zip` — the save path is
hard-coded to the `.zip` extension — not the rendered-document
extension `<target-dir>/<id>.pdf`. -/
theorem c6_counterexample :
    writesOf (async_get_document "KEY" "X1" "./out" 2
        (.resp 200 ⟨[80, 75], none⟩)).2 =
      [("./out/X1.zip", .bytes [80, 75])] ∧
    "./out/X1.zip" ≠ "./out/X1.pdf" ∧
    DOCTYPE "pdf" = some 2 := by
  exact ⟨rfl, by decide, rfl⟩

/-- Claim C6 as amended: the synchronous `get_document` writes the body of
a 200 response to `<target-dir>/<id>.<ext>` with ext `pdf` for type 2 and
`zip` otherwise (in particular `zip` for type 1), and returns `True`;
`async_get_document` always writes to `<target-dir>/<id>.zip`, whatever
the requested type. -/
theorem c6_theorem :
    (∀ key docId docType targetDir body,
      get_document key docId docType targetDir (.resp 200 body) =
        (.ok true,
          [.netCall (documentUrl docId docType key),
           .fileWrite
             (targetDir ++ "/" ++ docId ++ "." ++
               (if docType == 2 then "pdf" else "zip"))
             (.bytes body.bytes)])) ∧
    (∀ key docId targetDir docType s body,
      writesOf (async_get_document key docId targetDir docType
          (.resp s body)).2 =
        [(targetDir ++ "/" ++ docId ++ ".zip", .bytes body.bytes)]) := by
  refine ⟨?_, ?_⟩
  · intro key docId docType targetDir body
    rfl
  · intro key docId targetDir docType s body
    rfl

/-! ### Claim C8 — request validation -/

/-- Counterexample for claim C8: with a date that is not a valid calendar
date (February 30th) the worker still issues the network request (its
first observable effect is the network call with the bad date interpolated
into the URL) and returns normally rather than failing with an
InvalidParameter error; likewise `get_document` with an empty document id
issues the request. -/
theorem c8_counterexample :
    validCalendarDate "2024-02-30" = false ∧
    (get_doc_json "KEY" (some "2024-02-30") false "T" true
        (.resp 404 ⟨[], none⟩)).2.head? =
      some (.netCall (docJsonUrl "2024-02-30" "KEY")) ∧
    (get_doc_json "KEY" (some "2024-02-30") false "T" true
        (.resp 404 ⟨[], none⟩)).1 = .ok .pyFalse ∧
    (get_document "KEY" "" 1 "." (.resp 404 ⟨[], none⟩)).2.head? =
      some (.netCall (documentUrl "" 1 "KEY")) ∧
    (get_document "KEY" "" 1 "." (.resp 404 ⟨[], none⟩)).1 = .ok false := by
  exact ⟨by decide, rfl, rfl, rfl, rfl⟩

/-- Claim C8 as amended: no parameter validation exists — for every date
string (valid calendar date or not) and every document id (empty or not),
the workers interpolate the parameter into the URL and issue the network
request as their first observable effect. -/
theorem c8_theorem :
    (∀ key date output today dirEx http,
      (get_doc_json key date output today dirEx http).2.head? =
        some (.netCall (docJsonUrl (date.getD today) key))) ∧
    (∀ key docId docType targetDir http,
      (get_document key docId docType targetDir http).2.head? =
        some (.netCall (documentUrl docId docType key))) := by
  refine ⟨?_, ?_⟩
  · intro key date output today dirEx http
    rcases http with m | ⟨s, ⟨bs, j⟩⟩
    · rfl
    · show ((get_doc_json key date output today dirEx (.resp s ⟨bs, j⟩)).2).head? = _
      simp only [get_doc_json]
      split
      · rcases j with _ | data
        · rfl
        · obtain ⟨rest, hr⟩ := get_doc_json_tail_events (date.getD today) dirEx
            (some data)
            [.netCall (docJsonUrl (date.getD today) key),
             .fileWrite ("documents_" ++ date.getD today ++ ".json") (.jsonDump data)]
          rw [hr]
          rfl
      · split
        · rfl
        · obtain ⟨rest, hr⟩ := get_doc_json_tail_events (date.getD today) dirEx
            (HttpBody.mk bs j).asJson
            [.netCall (docJsonUrl (date.getD today) key),
             .printOut ("status_code = " ++ toString s)]
          rw [hr]
          rfl
  · intro key docId docType targetDir http
    rcases http with m | ⟨s, ⟨bs, j⟩⟩
    · rfl
    · show ((get_document key docId docType targetDir (.resp s ⟨bs, j⟩)).2).head? = _
      simp only [get_document]
      split <;> rfl

/-! ### Claim C4 — concurrency bound -/

/-- Counterexample for claim C4: neither `get_documents` nor
`async_get_docs` accepts a concurrency bound — `asyncio.gather(*tasks)`
schedules every task at once, so after the event loop's first ready pass
over a batch of 5 pending fetches (each with a positive response delay)
all 5 requests are simultaneously in flight, exceeding the scenario's
claimed bound of 2. -/
theorem c4_counterexample :
    inFlightCount (gatherFirstPass [1, 1, 1, 1, 1]) 0 = 5 ∧ 2 < 5 := by
  exact ⟨rfl, by decide⟩

/-- Claim C4 as amended: the batch fan-out is unbounded — for every batch
whose fetches all have a positive response delay, the event loop's first
ready pass after `asyncio.gather` puts every request of the batch in
flight simultaneously, so the number in flight equals the batch size. -/
theorem c4_theorem (delays : List Nat) (h : ∀ d ∈ delays, 0 < d) :
    inFlightCount (gatherFirstPass delays) 0 = delays.length := by
  unfold inFlightCount gatherFirstPass
  rw [List.filter_map, Function.comp_def]
  have hall : ∀ d ∈ delays,
      (match runSlice 0 d TaskPhase.notStarted with
        | TaskPhase.awaitingResponse c => decide (0 < c)
        | _ => false) = true := by
    intro d hd
    simp [runSlice, h d hd]
  rw [List.filter_eq_self.mpr hall, List.length_map]

/-- Witness for the C4 theorem on a concrete batch of three fetches. -/
theorem c4_witness :
    (∀ d ∈ [2, 3, 2], 0 < d) ∧
      inFlightCount (gatherFirstPass [2, 3, 2]) 0 = 3 :=
  ⟨by decide, c4_theorem [2, 3, 2] (by decide)⟩

/-! ### Claim C9 — pre-batch quiescence delay -/

/-- Claim C9, confirmed: in both batch schedulers the `time.sleep`
happens before `asyncio.gather` is awaited, and building the coroutine
list runs none of the coroutine bodies, so every network call of the
batch occurs strictly after the sleep event in the trace. -/
theorem c9_theorem :
    (∀ key today dates http st sched i u,
      (async_get_docs key today dates http st sched).2.get? i =
          some (.netCall u) →
      ∃ j, j < i ∧ (async_get_docs key today dates http st sched).2.get? j =
          some (.sleep st)) ∧
    (∀ key docIds http sched i u,
      (get_documents key docIds http sched).2.get? i = some (.netCall u) →
      ∃ j, j < i ∧ (get_documents key docIds http sched).2.get? j =
          some (.sleep 5)) := by
  refine ⟨?_, ?_⟩
  · intro key today dates http st sched i u hi
    match i with
    | 0 => exact absurd hi (by simp [async_get_docs])
    | n + 1 => exact ⟨0, Nat.succ_pos n, rfl⟩
  · intro key docIds http sched i u hi
    match i with
    | 0 => exact absurd hi (by simp [get_documents])
    | n + 1 => exact ⟨0, Nat.succ_pos n, rfl⟩

/-- Witness for the C9 theorem: a concrete one-date batch whose network
call sits at index 3 of the trace, after the sleep at index 0. -/
theorem c9_witness :
    ∃ j, j < 3 ∧
      (async_get_docs "KEY" "T" ["2024-01-01"] (fun _ => .exn "boom") 5
          [0, 0, 0, 0]).2.get? j = some (.sleep 5) :=
  c9_theorem.1 "KEY" "T" ["2024-01-01"] (fun _ => .exn "boom") 5 [0, 0, 0, 0] 3
    (docJsonUrl "2024-01-01" "KEY") (by decide)

/-! ### Claim C10 — credential precedence -/

/-- Counterexample for claim C10: with `EDINET_API_KEY` set to the empty
string (present in the environment, but falsy in Python) and a readable
key file supplied, `__init__` consults the key file even though the
environment variable is not absent. -/
theorem c10_counterexample :
    initKeySource (some "") (some "key.json") true = .keyFile ∧
    (some "" : Option String) ≠ none := by
  exact ⟨rfl, by decide⟩

/-- Claim C10 as amended: precedence is decided by Python truthiness —
`__init__` uses the environment variable exactly when it is set and
non-empty (and then stores its value); it consults the key file exactly
when the environment variable is unset or empty and a path to an existing
file was supplied; it falls back to the interactive widget exactly when
the environment variable is unset or empty and no existing key file was
supplied. -/
theorem c10_theorem (envKey : Option String) (keyPath : Option String)
    (isFile : Bool) (fileKey : Option String) :
    ((initKeySource envKey keyPath isFile = .envVar) ↔
      pyTruthy envKey = true) ∧
    (pyTruthy envKey = true →
      initKeyValue envKey keyPath isFile fileKey = envKey) ∧
    ((initKeySource envKey keyPath isFile = .keyFile) ↔
      (pyTruthy envKey = false ∧ (keyPath.isSome && isFile) = true)) ∧
    (initKeySource envKey keyPath isFile = .keyFile →
      initKeyValue envKey keyPath isFile fileKey = fileKey) ∧
    ((initKeySource envKey keyPath isFile = .interactive) ↔
      (pyTruthy envKey = false ∧ (keyPath.isSome && isFile) = false)) ∧
    (initKeySource envKey keyPath isFile = .interactive →
      initKeyValue envKey keyPath isFile fileKey = none) := by
  have hcase : pyTruthy envKey = true ∨ pyTruthy envKey = false := by
    cases pyTruthy envKey
    · exact Or.inr rfl
    · exact Or.inl rfl
  have hcasef : (keyPath.isSome && isFile) = true ∨
      (keyPath.isSome && isFile) = false := by
    cases keyPath.isSome && isFile
    · exact Or.inr rfl
    · exact Or.inl rfl
  rcases hcase with htru | htru
  · refine ⟨?_, ?_, ?_, ?_, ?_, ?_⟩ <;>
      simp [initKeySource, initKeyValue, htru]
  · rcases hcasef with hfile | hfile <;>
      refine ⟨?_, ?_, ?_, ?_, ?_, ?_⟩ <;>
        simp [initKeySource, initKeyValue, htru, hfile]

/-- Witness for the C10 theorem: a set, non-empty environment variable
wins even with a readable key file supplied. -/
theorem c10_witness :
    initKeySource (some "abc123") (some "key.json") true = .envVar ∧
    initKeyValue (some "abc123") (some "key.json") true (some "filekey") =
      some "abc123" :=
  ⟨(c10_theorem (some "abc123") (some "key.json") true (some "filekey")).1.mpr
      (by decide),
   (c10_theorem (some "abc123") (some "key.json") true (some "filekey")).2.1
      (by decide)⟩

/-! ### Claim C1 — order preservation of batch results

Supporting lemmas about the slot-filling model of `asyncio.gather`'s
result assembly. -/

theorem fillSlots_length (slots : List (Option α)) (ps : List (Nat × α)) :
    (fillSlots slots ps).length = slots.length := by
  induction ps generalizing slots with
  | nil => rfl
  | cons p rest ih => rw [fillSlots, ih, List.length_set]

theorem fillSlots_append (slots : List (Option α)) (ps qs : List (Nat × α)) :
    fillSlots slots (ps ++ qs) = fillSlots (fillSlots slots ps) qs := by
  induction ps generalizing slots with
  | nil => rfl
  | cons p rest ih => rw [List.cons_append, fillSlots, fillSlots, ih]

theorem fillSlots_getElem?_not_mem (slots : List (Option α))
    (ps : List (Nat × α)) (j : Nat) (h : j ∉ ps.map Prod.fst) :
    (fillSlots slots ps)[j]? = slots[j]? := by
  induction ps generalizing slots with
  | nil => rfl
  | cons p rest ih =>
    simp only [List.map_cons, List.mem_cons] at h
    push_neg at h
    rw [fillSlots, ih _ h.2, List.getElem?_set_ne (Ne.symm h.1)]

/-- A slot whose index arrives exactly once holds that arrival's value. -/
theorem fillSlots_getElem?_single (slots : List (Option α))
    (l r : List (Nat × α)) (j : Nat) (v : α) (hj : j < slots.length)
    (hr : j ∉ r.map Prod.fst) :
    (fillSlots slots (l ++ (j, v) :: r))[j]? = some (some v) := by
  rw [fillSlots_append]
  show (fillSlots ((fillSlots slots l).set j (some v)) r)[j]? = some (some v)
  rw [fillSlots_getElem?_not_mem _ _ _ hr,
    List.getElem?_set_self (by rw [fillSlots_length]; exact hj)]

/-- First components of the arrival list are exactly the completion
order, as long as every completing index is in range. -/
theorem arrivals_map_fst (tasks : List α) (xs : List Nat)
    (hx : ∀ i ∈ xs, i < tasks.length) :
    (xs.filterMap fun i => (tasks.get? i).map fun v => (i, v)).map Prod.fst
      = xs := by
  induction xs with
  | nil => rfl
  | cons i rest ih =>
    have hi : i < tasks.length := hx i (List.mem_cons_self i rest)
    obtain ⟨v, hv⟩ : ∃ v, tasks.get? i = some v :=
      List.get?_eq_get hi ▸ ⟨tasks.get ⟨i, hi⟩, rfl⟩
    rw [List.filterMap_cons, hv]
    simp only [Option.map_some']
    rw [List.map_cons]
    exact congrArg (i :: ·) (ih fun x hxm => hx x (List.mem_cons_of_mem i hxm))

/-- Order preservation of `asyncio.gather`'s result assembly: whatever
order the children complete in (any permutation of the task indices), the
result list has one entry per task, in task order. -/
theorem gatherRes_perm (tasks : List α) (σ : List Nat)
    (hperm : σ.Perm (List.range tasks.length)) :
    gatherRes tasks σ = tasks.map some := by
  have hmemlt : ∀ i ∈ σ, i < tasks.length := fun i hi =>
    List.mem_range.mp (hperm.mem_iff.mp hi)
  apply List.ext_getElem?
  intro j
  by_cases hj : j < tasks.length
  · have hmem : j ∈ σ := hperm.mem_iff.mpr (List.mem_range.mpr hj)
    obtain ⟨l, r, rfl⟩ := List.append_of_mem hmem
    have hcount : (l ++ j :: r).count j = 1 := by
      rw [hperm.count_eq]
      exact List.count_eq_one_of_mem (List.nodup_range _) (List.mem_range.mpr hj)
    have hl0 : l.count j = 0 ∧ r.count j = 0 := by
      rw [List.count_append, List.count_cons_self] at hcount
      omega
    have hjl : j ∉ l := List.count_eq_zero.mp hl0.1
    have hjr : j ∉ r := List.count_eq_zero.mp hl0.2
    have hjv : tasks.get? j = some (tasks.get ⟨j, hj⟩) := List.get?_eq_get hj
    have hsplit :
        ((l ++ j :: r).filterMap fun i => (tasks.get? i).map fun v => (i, v)) =
          (l.filterMap fun i => (tasks.get? i).map fun v => (i, v)) ++
            (j, tasks.get ⟨j, hj⟩) ::
              (r.filterMap fun i => (tasks.get? i).map fun v => (i, v)) := by
      rw [List.filterMap_append, List.filterMap_cons, hjv]
      rfl
    have hrfst : j ∉ (r.filterMap fun i =>
        (tasks.get? i).map fun v => (i, v)).map Prod.fst := by
      rw [arrivals_map_fst tasks r fun i hi =>
        hmemlt i (List.mem_append_right l (List.mem_cons_of_mem j hi))]
      exact hjr
    rw [gatherRes, hsplit,
      fillSlots_getElem?_single _ _ _ _ _ (by rw [List.length_replicate]; exact hj)
        hrfst,
      List.getElem?_map, List.getElem?_eq_getElem hj]
    rfl
  · have h1 : (gatherRes tasks σ).length ≤ j := by
      rw [gatherRes, fillSlots_length, List.length_replicate]
      omega
    have h2 : (tasks.map some).length ≤ j := by
      rw [List.length_map]
      omega
    rw [List.getElem?_eq_none h1, List.getElem?_eq_none h2]

/-- Counterexample for claim C1: both batch entry points discard the
gather result — their bodies end without a `return` statement — so the
caller receives Python `None`, not a sequence with one outcome per input
request (here: one-request batches whose returned value is `none`). -/
theorem c1_counterexample :
    (get_documents "KEY" [("A1", "./out")]
        (fun _ => .resp 200 ⟨[9], none⟩) [0, 0, 0]).1 = none ∧
    (async_get_docs "KEY" "T" ["2024-01-01"]
        (fun _ => .resp 200 ⟨[], some ⟨some []⟩⟩) 5 [0, 0, 0]).1 = none := by
  exact ⟨rfl, rfl⟩

/-- Claim C1 as amended: inside the scheduler, `asyncio.gather` does
assemble exactly one result per task, at the task's own input index,
regardless of the completion order (any permutation of the task indices);
but `get_documents` and `async_get_docs` discard that sequence and return
`None` to their caller (and each per-task result is itself `None`). -/
theorem c1_theorem (tasks : List α) (σ : List Nat)
    (hperm : σ.Perm (List.range tasks.length)) :
    gatherRes tasks σ = tasks.map some ∧
    (∀ key docIds http completionOrder,
      get_documents_gather key docIds http completionOrder =
        gatherRes ((get_documents_tasks key docIds http).map Prod.fst)
          completionOrder) ∧
    (∀ key docIds http sched, (get_documents key docIds http sched).1 = none) ∧
    (∀ key today dates http st sched,
      (async_get_docs key today dates http st sched).1 = none) := by
  exact ⟨gatherRes_perm tasks σ hperm, fun _ _ _ _ => rfl, fun _ _ _ _ => rfl,
    fun _ _ _ _ _ _ => rfl⟩

/-- Witness for the C1 theorem: three tasks completing in the order
2, 0, 1 still yield results in task order. -/
theorem c1_witness :
    gatherRes [10, 20, 30] [2, 0, 1] = [some 10, some 20, some 30] :=
  (c1_theorem [10, 20, 30] [2, 0, 1] (by decide)).1

/-! ### Claim C7 — the daily metadata driver -/

/-- One iteration of the `__main__` loop on a friendly environment:
it performs exactly the one listing fetch for its date and accumulates
that date's record table (empty for a 404 or for absent/empty results). -/
theorem mainLoop_cons_spec (key : String) (dateStr : Nat → String)
    (env : Nat → HttpResult) (d : Nat) (ds : List Nat) (dirEx : Bool)
    (acc : List Record) (evs : List Event)
    (hf : mainFriendly (env d) = true) :
    ∃ e dirEx2,
      mainLoop key dateStr env (d :: ds) dirEx acc evs =
        mainLoop key dateStr env ds dirEx2 (acc ++ perDateRows (env d))
          (evs ++ e) ∧
      netCallsOf e = [docJsonUrl (dateStr d) key] := by
  rcases henv : env d with m | ⟨s, ⟨bs, j⟩⟩
  · rw [henv] at hf
    exact absurd hf (by simp [mainFriendly])
  · rw [henv] at hf
    by_cases h404 : s = 404
    · subst h404
      refine ⟨[.netCall (docJsonUrl (dateStr d) key),
        .printErr "status code: 404"], dirEx, ?_, rfl⟩
      simp [mainLoop, henv, get_doc_json, perDateRows]
    · have hs : s = 200 ∧ j.isSome = true := by
        rcases Bool.or_eq_true_iff.mp hf with h | h
        · exact absurd (by simpa using h) h404
        · have h2 := Bool.and_eq_true_iff.mp h
          exact ⟨by simpa using h2.1, h2.2⟩
      obtain ⟨hs200, hjs⟩ := hs
      subst hs200
      rcases j with _ | data
      · simp at hjs
      · rcases data with ⟨_ | rows⟩
        · cases dirEx
          · refine ⟨[.netCall (docJsonUrl (dateStr d) key),
              .printOut ("status_code = " ++ toString 200), .mkdir TSV_PATH],
              true, ?_, rfl⟩
            simp [mainLoop, henv, get_doc_json, get_doc_json_tail, perDateRows]
          · refine ⟨[.netCall (docJsonUrl (dateStr d) key),
              .printOut ("status_code = " ++ toString 200)], true, ?_, rfl⟩
            simp [mainLoop, henv, get_doc_json, get_doc_json_tail, perDateRows]
        · rcases rows with _ | ⟨r0, rtl⟩
          · cases dirEx
            · refine ⟨[.netCall (docJsonUrl (dateStr d) key),
                .printOut ("status_code = " ++ toString 200), .mkdir TSV_PATH,
                .fileWrite (TSV_PATH ++ "/document_list_" ++ dateStr d ++ ".tsv.gz")
                  (.table [])], true, ?_, rfl⟩
              simp [mainLoop, henv, get_doc_json, get_doc_json_tail, perDateRows]
            · refine ⟨[.netCall (docJsonUrl (dateStr d) key),
                .printOut ("status_code = " ++ toString 200),
                .fileWrite (TSV_PATH ++ "/document_list_" ++ dateStr d ++ ".tsv.gz")
                  (.table [])], true, ?_, rfl⟩
              simp [mainLoop, henv, get_doc_json, get_doc_json_tail, perDateRows]
          · cases dirEx
            · refine ⟨[.netCall (docJsonUrl (dateStr d) key),
                .printOut ("status_code = " ++ toString 200), .mkdir TSV_PATH,
                .fileWrite (TSV_PATH ++ "/document_list_" ++ dateStr d ++ ".tsv.gz")
                  (.table (r0 :: rtl))], true, ?_, rfl⟩
              simp [mainLoop, henv, get_doc_json, get_doc_json_tail, perDateRows]
            · refine ⟨[.netCall (docJsonUrl (dateStr d) key),
                .printOut ("status_code = " ++ toString 200),
                .fileWrite (TSV_PATH ++ "/document_list_" ++ dateStr d ++ ".tsv.gz")
                  (.table (r0 :: rtl))], true, ?_, rfl⟩
              simp [mainLoop, henv, get_doc_json, get_doc_json_tail, perDateRows]

/-- Full characterization of the `__main__` loop on friendly
environments: one ordered listing fetch per date, the combined table is
the in-order concatenation of the per-date tables, and the last effect is
writing that combined table to `document_list.tsv`. -/
theorem mainLoop_spec (key : String) (dateStr : Nat → String)
    (env : Nat → HttpResult) (dates : List Nat) :
    ∀ dirEx acc evs, (∀ d ∈ dates, mainFriendly (env d) = true) →
      (mainLoop key dateStr env dates dirEx acc evs).1 =
          .ok (acc ++ (dates.map fun d => perDateRows (env d)).flatten) ∧
      netCallsOf (mainLoop key dateStr env dates dirEx acc evs).2 =
          netCallsOf evs ++ dates.map (fun d => docJsonUrl (dateStr d) key) ∧
      (mainLoop key dateStr env dates dirEx acc evs).2.getLast? =
          some (.fileWrite "document_list.tsv"
            (.table (acc ++ (dates.map fun d => perDateRows (env d)).flatten))) := by
  induction dates with
  | nil =>
    intro dirEx acc evs _
    refine ⟨by simp [mainLoop], ?_, ?_⟩
    · simp [mainLoop, netCallsOf_append, netCallsOf]
    · simp [mainLoop, List.getLast?_concat]
  | cons d ds ih =>
    intro dirEx acc evs hf
    obtain ⟨e, dirEx2, heq, hnet⟩ :=
      mainLoop_cons_spec key dateStr env d ds dirEx acc evs
        (hf d (List.mem_cons_self d ds))
    rw [heq]
    obtain ⟨ih1, ih2, ih3⟩ :=
      ih dirEx2 (acc ++ perDateRows (env d)) (evs ++ e)
        (fun x hx => hf x (List.mem_cons_of_mem d hx))
    refine ⟨?_, ?_, ?_⟩
    · rw [ih1]
      simp [List.append_assoc]
    · rw [ih2, netCallsOf_append, hnet]
      simp
    · rw [ih3]
      simp [List.append_assoc]

/-- The dates of `datesFromTo` are strictly ascending. -/
theorem datesFromTo_chain (start stop : Nat) :
    List.Chain' (· < ·) (datesFromTo start stop) :=
  (List.pairwise_lt_range' start (stop + 1 - start)).chain'

/-- Membership in `datesFromTo` is exactly the closed interval. -/
theorem datesFromTo_mem (start stop d : Nat) :
    d ∈ datesFromTo start stop ↔ start ≤ d ∧ d ≤ stop := by
  rw [datesFromTo, List.mem_range'_1]
  omega

/-- Claim C7, confirmed: for every closed date interval, the driver
dispatches exactly one listing fetch per date (the network-call trace is
the per-date listing URL list, in interval order; the interval itself is
strictly ascending and contains each day of `[start, stop]` exactly
once by `Chain'` of `<`), runs dates sequentially, and — provided every
date's response is a 404 or a decodable 200, so that no exception aborts
the script — finishes by writing the combined table, which is the
concatenation of the per-date record tables in date order; dates whose
outcome was `NotFound` (404) or whose `results` were absent or empty
contribute the empty table.  The `__main__` block is the instance
`start = today - 180`, `stop = today`. -/
theorem c7_theorem (key : String) (dateStr : Nat → String) (dirEx : Bool)
    (env : Nat → HttpResult) (start stop : Nat)
    (hf : ∀ d ∈ datesFromTo start stop, mainFriendly (env d) = true) :
    (driverRange key dateStr dirEx env start stop).1 =
        .ok ((datesFromTo start stop).map fun d => perDateRows (env d)).flatten ∧
    netCallsOf (driverRange key dateStr dirEx env start stop).2 =
        (datesFromTo start stop).map (fun d => docJsonUrl (dateStr d) key) ∧
    (driverRange key dateStr dirEx env start stop).2.getLast? =
        some (.fileWrite "document_list.tsv"
          (.table ((datesFromTo start stop).map fun d => perDateRows (env d)).flatten)) ∧
    List.Chain' (· < ·) (datesFromTo start stop) ∧
    (∀ d, d ∈ datesFromTo start stop ↔ start ≤ d ∧ d ≤ stop) ∧
    (∀ t, edinetMain key t dateStr dirEx env =
      driverRange key dateStr dirEx env (t - 180) t) := by
  obtain ⟨h1, h2, h3⟩ := mainLoop_spec key dateStr env (datesFromTo start stop)
    dirEx [] [] hf
  refine ⟨?_, ?_, ?_, datesFromTo_chain start stop, datesFromTo_mem start stop,
    fun t => rfl⟩
  · rw [driverRange, h1]
    simp
  · rw [driverRange, h2]
    rfl
  · rw [driverRange, h3]
    simp

/-- Witness for the C7 theorem: a three-day run whose middle day returns
an empty `results` array — the combined table keeps day 1 and day 3, in
that order. -/
theorem c7_witness :
    (driverRange "KEY" (fun n => toString n) true
        (fun d => if d == 2 then .resp 200 ⟨[], some ⟨some []⟩⟩
          else .resp 200 ⟨[], some ⟨some [[("docID", toString d)]]⟩⟩) 1 3).1 =
      .ok ((datesFromTo 1 3).map fun d =>
        perDateRows (if d == 2 then .resp 200 ⟨[], some ⟨some []⟩⟩
          else .resp 200 ⟨[], some ⟨some [[("docID", toString d)]]⟩⟩)).flatten :=
  (c7_theorem ("KEY") (fun n => toString n) true
    (fun d => if d == 2 then .resp 200 ⟨[], some ⟨some []⟩⟩
      else .resp 200 ⟨[], some ⟨some [[("docID", toString d)]]⟩⟩) 1 3
    (by decide)).1

end Edinet
